import Mathlib

/-!
Verification of the bo2box batch-ETL pipeline (src/etl_fact.py, src/etl_dims.py,
src/etl_data_mart.py).

Pandas DataFrames are modelled shallowly: a cell is a `Value`, a row is an
association list from column names to cells, and a DataFrame is a column list
together with a row list.  Pandas equality quirks that the pipeline relies on
are reflected in the model: `isin` and `merge` match NaN/None with NaN/None,
which plain `Value` equality captures; `astype(str)` renders NaN as "nan".
Database extraction/loading are external collaborators; an extraction result is
`Option DF` (`none` = the read failed and the job must abort).
-/

namespace Bo2box

/-- A pandas cell value.  `float` carries an integral payload: the pipeline's
only float cast (`astype(float)` on monetary columns) is never inspected by any
property proved here, so integral floats suffice; `null` stands for NaN/None. -/
inductive Value where
  | str (s : String)
  | int (n : Int)
  | float (n : Int)
  | bool (b : Bool)
  | null
deriving DecidableEq, Repr

/-- Python `str(x)` as applied by `.astype(str)` to a cell (NaN renders "nan"). -/
def Value.astype_str : Value → String
  | .str s => s
  | .int n => toString n
  | .float n => toString n ++ ".0"
  | .bool b => if b then "True" else "False"
  | .null => "nan"

/-- Python `float(x)` on the integral cells the pipeline feeds it; a non-numeric
string would raise in Python and is outside every property proved here. -/
def Value.astype_float : Value → Value
  | .int n => .float n
  | .float n => .float n
  | v => v

/-- A DataFrame row: column name ↦ cell, in column order. -/
abbrev Row := List (String × Value)

/-- Cell lookup; pandas rows always carry every column of the frame, and a
missing entry reads as NaN. -/
def Row.get : Row → String → Value
  | [], _ => .null
  | p :: r, c => if p.1 = c then p.2 else Row.get r c

/-- Overwrite (or append) the cell of column `c`. -/
def Row.set : Row → String → Value → Row
  | [], c, v => [(c, v)]
  | p :: r, c, v => if p.1 = c then (c, v) :: r else p :: Row.set r c v

/-- The column names carried by a row. -/
def Row.keys (r : Row) : List String := r.map Prod.fst

theorem Row.get_set_ne (r : Row) (c c' : String) (v : Value) (h : c ≠ c') :
    (r.set c v).get c' = r.get c' := by
  induction r with
  | nil => simp [Row.set, Row.get, h]
  | cons p r ih =>
    by_cases hp : p.1 = c
    · simp [Row.set, hp, Row.get, h, hp ▸ h]
    · simp only [Row.set, if_neg hp, Row.get]
      by_cases hp' : p.1 = c'
      · simp [hp']
      · simp [hp', ih]

theorem Row.get_eq_null_of_not_keys (r : Row) (c : String) (h : c ∉ r.keys) :
    r.get c = .null := by
  induction r with
  | nil => rfl
  | cons p r ih =>
    simp only [Row.keys, List.map_cons, List.mem_cons, not_or] at h
    have hp : p.1 ≠ c := fun hp => h.1 hp.symm
    simp only [Row.get, if_neg hp]
    exact ih (by simpa [Row.keys] using h.2)

theorem Row.get_append_of_not_keys (l r : Row) (c : String) (h : c ∉ r.keys) :
    Row.get (l ++ r) c = l.get c := by
  induction l with
  | nil =>
    simpa [Row.get] using Row.get_eq_null_of_not_keys r c h
  | cons p l ih =>
    by_cases hp : p.1 = c
    · simp [Row.get, hp]
    · simpa [Row.get, hp] using ih

/-- Python truthiness test `if x:` on a phone cell: None and "" are falsy. -/
def py_truthy : Option String → Bool
  | none => false
  | some s => s ≠ ""

/-- Python `x.startswith('+')`. -/
def starts_with_plus (s : String) : Bool := s.data.head? == some '+'

/-- The lambda of `transform_phone_number` (src/etl_fact.py line 52, identical
in src/etl_dims.py line 21): `f"+62{x}" if x and not x.startswith('+') else x`,
on a phone cell (string or null). -/
def transform_phone_value (x : Option String) : Option String :=
  match x with
  | none => none
  | some s =>
    if py_truthy (some s) ∧ ¬ starts_with_plus s then some ("+62" ++ s)
    else some s

/-- `Char.toLower` composed with the regex deletion `[^a-z]` keeps exactly the
lowercase ASCII letters. -/
def is_lower_alpha (c : Char) : Bool := decide ('a' ≤ c) && decide (c ≤ 'z')

/-- `room_type` normalization (src/etl_fact.py line 38, src/etl_dims.py line
19): `.str.lower().str.replace('[^a-z]', '', regex=True)`. -/
def normalize_room_type (s : String) : String :=
  ⟨(s.data.map Char.toLower).filter is_lower_alpha⟩

/-- A pandas DataFrame: named columns plus rows keyed by them. -/
structure DF where
  cols : List String
  rows : List Row
deriving DecidableEq, Repr

/-- The values of column `c` in row order (the series `df[c]`). -/
def DF.colValues (df : DF) (c : String) : List Value :=
  df.rows.map (fun r => r.get c)

/-- Column assignment `df[c] = df[c].map(f)`: rewrite column `c` cell-wise
(appending the column when pandas would create it). -/
def DF.mapCol (df : DF) (c : String) (f : Value → Value) : DF :=
  { cols := if c ∈ df.cols then df.cols else df.cols ++ [c],
    rows := df.rows.map (fun r => r.set c (f (r.get c))) }

/-- The guarded constant assignment `if c not in df.columns: df[c] = v` used by
`prepare_data` (src/etl_dims.py lines 35-40). -/
def DF.addColIfAbsent (df : DF) (c : String) (v : Value) : DF :=
  if c ∈ df.cols then df
  else { cols := df.cols ++ [c], rows := df.rows.map (fun r => r ++ [(c, v)]) }

/-- `df.rename(columns=m)`: a column named as a key of `m` is renamed to the
mapped name, all other columns are untouched. -/
def renameKey : List (String × String) → String → String
  | [], c => c
  | p :: m, c => if p.1 = c then p.2 else renameKey m c

def Row.renameKeys (m : List (String × String)) (r : Row) : Row :=
  r.map (fun p => (renameKey m p.1, p.2))

def DF.rename (df : DF) (m : List (String × String)) : DF :=
  { cols := df.cols.map (renameKey m), rows := df.rows.map (Row.renameKeys m) }

/-- `df[cs]`: column projection (in the pipeline `cs` is always a subset of the
frame's columns, so pandas' KeyError branch never fires). -/
def Row.project (cs : List String) (r : Row) : Row := cs.map (fun c => (c, r.get c))

def DF.select (df : DF) (cs : List String) : DF :=
  { cols := cs, rows := df.rows.map (Row.project cs) }

/-- Boolean-mask row filtering `df[mask]`. -/
def DF.filterRows (df : DF) (p : Row → Bool) : DF :=
  { cols := df.cols, rows := df.rows.filter p }

/-- `drop_duplicates(subset=c)` with the pandas default `keep='first'`: keep
the first row carrying each value of column `c`. -/
def dedupBy (c : String) : List Row → List Value → List Row
  | [], _ => []
  | r :: rs, seen =>
    if r.get c ∈ seen then dedupBy c rs seen
    else r :: dedupBy c rs (r.get c :: seen)

def DF.dropDuplicates (df : DF) (c : String) : DF :=
  { cols := df.cols, rows := dedupBy c df.rows [] }

/-- `pd.merge(ldf, rdf, left_on, right_on, how='left', suffixes=(lsuf, rsuf))`:
every left row is kept; it is paired with each matching right row, or with a
null-filled right side when nothing matches; column names occurring on both
sides receive their side's suffix.  Pandas matches NaN keys with NaN keys,
which `Value` equality reflects. -/
def applySuffix (overlap : List String) (suf : String) (c : String) : String :=
  if c ∈ overlap then c ++ suf else c

def DF.leftMerge (ldf rdf : DF) (lOn rOn : String) (lsuf rsuf : String) : DF :=
  let overlap := ldf.cols.filter (fun c => decide (c ∈ rdf.cols))
  let lrow := fun (r : Row) => r.map (fun p => (applySuffix overlap lsuf p.1, p.2))
  let rrow := fun (r : Row) => r.map (fun p => (applySuffix overlap rsuf p.1, p.2))
  let rnull : Row := rdf.cols.map (fun c => (applySuffix overlap rsuf c, Value.null))
  { cols := ldf.cols.map (applySuffix overlap lsuf) ++ rdf.cols.map (applySuffix overlap rsuf),
    rows := ldf.rows.flatMap (fun l =>
      match rdf.rows.filter (fun r => decide (r.get rOn = l.get lOn)) with
      | [] => [lrow l ++ rnull]
      | ms => ms.map (fun r => lrow l ++ rrow r)) }

/-- The `.str.lower().str.replace('[^a-z]', '', regex=True)` pipeline on one
cell: strings are normalized; pandas `.str` accessors turn anything else
(including NaN) into NaN. -/
def room_type_cell : Value → Value
  | .str s => .str (normalize_room_type s)
  | _ => .null

/-- The phone lambda on one cell.  A None cell is falsy and passes through;
the extracted phone column holds strings or nulls only. -/
def phone_cell : Value → Value
  | .str s =>
    if py_truthy (some s) ∧ ¬ starts_with_plus s then .str ("+62" ++ s) else .str s
  | v => v

/-- src/etl_fact.py `transform_room_type`: guarded, a no-op when the column is
absent. -/
def transform_room_type (df : DF) : DF :=
  if "room_type" ∈ df.cols then df.mapCol "room_type" room_type_cell else df

/-- src/etl_fact.py `transform_phone_number`: guarded, a no-op when the column
is absent. -/
def transform_phone_number (df : DF) : DF :=
  if "phone_number" ∈ df.cols then df.mapCol "phone_number" phone_cell else df

/-- src/etl_fact.py `transform_reservation_data`: cast the two monetary
columns to float when present. -/
def transform_reservation_data (df : DF) : DF :=
  let df1 :=
    if "total_room_price" ∈ df.cols then df.mapCol "total_room_price" Value.astype_float
    else df
  if "total_discount" ∈ df1.cols then df1.mapCol "total_discount" Value.astype_float
  else df1

/-- src/etl_fact.py `prepare_fact_data`: select `columns`, drop duplicate
`id_col` values keeping the first, rename `id_col` to `new_id_col`. -/
def prepare_fact_data (df : DF) (columns : List String) (id_col new_id_col : String) : DF :=
  ((df.select columns).dropDuplicates id_col).rename [(id_col, new_id_col)]

/-- src/etl_dims.py `transform_dimension_data`: unguarded column access, so a
missing column raises a `KeyError` (modelled as `Except.error`). -/
def transform_dimension_data (df : DF) (dimension_type : String) : Except String DF :=
  if dimension_type = "dim_rooms" then
    if "room_type" ∈ df.cols then .ok (df.mapCol "room_type" room_type_cell)
    else .error "KeyError: room_type"
  else if dimension_type = "dim_guests" then
    if "phone_number" ∈ df.cols then .ok (df.mapCol "phone_number" phone_cell)
    else .error "KeyError: phone_number"
  else .ok df

/-- The `columns_map` dictionary of src/etl_dims.py `prepare_data`, with the
`.get(dimension_type, {})` default. -/
def columns_map (dimension_type : String) : List (String × String) :=
  if dimension_type = "dim_reservations" then [("id", "reservation_id")]
  else if dimension_type = "dim_stays" then
    [("id", "stay_id"), ("reference_reservation_id", "reservation_id")]
  else if dimension_type = "dim_rooms" then [("id", "room_id")]
  else if dimension_type = "dim_guests" then [("id", "guest_id")]
  else []

/-- src/etl_dims.py `prepare_data`; `today` stands for
`pd.Timestamp.now().normalize()`, the load-time date. -/
def prepare_data (df : DF) (dimension_type : String) (today : Value) : DF :=
  (((df.rename (columns_map dimension_type)).addColIfAbsent "effective_date"
      today).addColIfAbsent "end_date" .null).addColIfAbsent "current_flag" (.bool true)

/-- The column lists of the two `prepare_fact_data` calls in src/etl_fact.py
`main`. -/
def fact_reservation_columns : List String :=
  ["id", "reservation_datetime", "check_in_date", "check_out_date", "status",
   "hotel_id", "booker_id", "total_room_price", "voucher_code", "total_discount"]

def fact_stay_columns : List String :=
  ["id", "date", "reservation_id", "room_id", "guest_id"]

/-- src/etl_fact.py `main` lines 124-126: denormalize stays with room_type and
phone_number, then rename the reservation reference. -/
def stays_merged (stays rooms users : DF) : DF :=
  ((stays.leftMerge (rooms.select ["id", "room_type"]) "room_id" "id" "" "_room").leftMerge
      (users.select ["id", "phone_number"]) "guest_id" "id" "" "_guest").rename
    [("reference_reservation_id", "reservation_id")]

/-- src/etl_fact.py `main` line 128. -/
def reservations_merged (reservations staysM : DF) : DF :=
  reservations.leftMerge (staysM.select ["reservation_id"]) "id" "reservation_id" "" "_stays"

/-- src/etl_fact.py `main` lines 131-132: the isin-based partition. -/
def valid_stays (staysM reservationsM : DF) : DF :=
  staysM.filterRows (fun r => decide (r.get "reservation_id" ∈ reservationsM.colValues "id"))

def invalid_stays (staysM reservationsM : DF) : DF :=
  staysM.filterRows (fun r => ! decide (r.get "reservation_id" ∈ reservationsM.colValues "id"))

/-- The two frames handed to `load_data` plus the reported invalid stays. -/
structure FactOutput where
  fact_reservations : DF
  fact_stays : DF
  invalid : DF
deriving DecidableEq, Repr

/-- The `stays_df` frame of src/etl_fact.py `main` as it stands after line
126, with the room/user transforms of lines 119-120 applied first. -/
def pipeline_staysM (stays0 rooms0 users0 : DF) : DF :=
  stays_merged stays0 (transform_room_type rooms0) (transform_phone_number users0)

/-- The `reservations_df` frame of src/etl_fact.py `main` after line 128. -/
def pipeline_reservationsM (reservations0 stays0 rooms0 users0 : DF) : DF :=
  reservations_merged (transform_reservation_data reservations0)
    (pipeline_staysM stays0 rooms0 users0)

/-- The transform/merge/reconcile body of src/etl_fact.py `main` (loading is
external I/O; the output records what would be loaded and reported). -/
def fact_pipeline (reservations0 stays0 rooms0 users0 : DF) : FactOutput :=
  let staysM := pipeline_staysM stays0 rooms0 users0
  let reservationsM := pipeline_reservationsM reservations0 stays0 rooms0 users0
  { fact_reservations :=
      prepare_fact_data reservationsM fact_reservation_columns "id" "reservation_id",
    fact_stays :=
      prepare_fact_data (valid_stays staysM reservationsM) fact_stay_columns "id" "stay_id",
    invalid := invalid_stays staysM reservationsM }

/-- src/etl_fact.py `main` with its extraction-failure check: any `None`
extraction aborts before any transform or merge runs. -/
def run_fact_main (reservations stays rooms users : Option DF) : Option FactOutput :=
  match reservations, stays, rooms, users with
  | some r, some s, some rm, some u => some (fact_pipeline r s rm u)
  | _, _, _, _ => none

/-- src/etl_dims.py `main` with its extraction-failure check; the result lists
the four frames handed to `load_dimension_data`, and `Except.error` models an
uncaught KeyError in a transform. -/
def run_dims_main (today : Value) (reservations stays rooms guests : Option DF) :
    Option (Except String (DF × DF × DF × DF)) :=
  match reservations, stays, rooms, guests with
  | some r, some s, some rm, some g =>
    some (do
      let rm2 ← transform_dimension_data rm "dim_rooms"
      let g2 ← transform_dimension_data g "dim_guests"
      pure (prepare_data r "dim_reservations" today, prepare_data s "dim_stays" today,
            prepare_data rm2 "dim_rooms" today, prepare_data g2 "dim_guests" today))
  | _, _, _, _ => none

/-- A row of the extracted Reservations table (src schema: id,
reservation_datetime, check_in_date, check_out_date, status, hotel_id,
booker_id, total_room_price, voucher_code, total_discount). -/
structure Reservation where
  id : Value
  reservation_datetime : Value
  check_in_date : Value
  check_out_date : Value
  status : Value
  hotel_id : Value
  booker_id : Value
  total_room_price : Value
  voucher_code : Value
  total_discount : Value
deriving DecidableEq, Repr

/-- A row of the extracted Campaign table (id, name, description). -/
structure Campaign where
  id : Value
  name : String
  description : String
deriving DecidableEq, Repr

/-- A marketing-mart output row (the selected/renamed columns of
src/etl_data_mart.py lines 59-62); campaign fields are null when the left
join found no campaign. -/
structure MarketingRow where
  reservation_id : Value
  reservation_datetime : Value
  check_in_date : Value
  check_out_date : Value
  total_room_price : Value
  total_discount : Value
  campaign_name : Option String
  campaign_description : Option String
deriving DecidableEq, Repr

def marketing_row (r : Reservation) (n d : Option String) : MarketingRow :=
  { reservation_id := r.id, reservation_datetime := r.reservation_datetime,
    check_in_date := r.check_in_date, check_out_date := r.check_out_date,
    total_room_price := r.total_room_price, total_discount := r.total_discount,
    campaign_name := n, campaign_description := d }

/-- src/etl_data_mart.py `create_marketing_mart`: coerce both join keys with
`astype(str)`, left-join reservations to campaigns on
voucher_code = campaign id, select and rename. -/
def create_marketing_mart (reservations : List Reservation) (campaigns : List Campaign) :
    List MarketingRow :=
  reservations.flatMap (fun r =>
    match campaigns.filter (fun c => decide (c.id.astype_str = r.voucher_code.astype_str)) with
    | [] => [marketing_row r none none]
    | ms => ms.map (fun c => marketing_row r (some c.name) (some c.description)))

theorem toLower_eq_self_of_lower_alpha (c : Char) (h : is_lower_alpha c = true) :
    c.toLower = c := by
  simp only [is_lower_alpha, Bool.and_eq_true, decide_eq_true_eq] at h
  have h97 : 97 ≤ c.toNat := by simpa [Char.le_def] using h.1
  unfold Char.toLower
  simp [Char.toNat] at h97 ⊢
  omega

/-- Claim C6: every character of a normalized room type lies in a–z, and
normalization is idempotent. -/
theorem room_type_normalization_lower_and_idempotent (s : String) :
    (∀ c ∈ (normalize_room_type s).data, 'a' ≤ c ∧ c ≤ 'z')
    ∧ normalize_room_type (normalize_room_type s) = normalize_room_type s := by
  constructor
  · intro c hc
    have := List.of_mem_filter hc
    simpa [is_lower_alpha] using this
  · show normalize_room_type ⟨_⟩ = _
    unfold normalize_room_type
    congr 1
    have hmap : ((s.data.map Char.toLower).filter is_lower_alpha).map Char.toLower
        = (s.data.map Char.toLower).filter is_lower_alpha := by
      have h := List.map_congr_left
        (l := (s.data.map Char.toLower).filter is_lower_alpha)
        (f := Char.toLower) (g := fun c => c)
        (fun c hc => toLower_eq_self_of_lower_alpha c (List.of_mem_filter hc))
      simpa using h
    rw [hmap]
    exact List.filter_eq_self.mpr fun c hc => List.of_mem_filter hc

/-- Witness for C6 at a concrete room-type string. -/
theorem room_type_normalization_witness :
    (∀ c ∈ (normalize_room_type "Deluxe Room-12").data, 'a' ≤ c ∧ c ≤ 'z')
    ∧ normalize_room_type (normalize_room_type "Deluxe Room-12")
        = normalize_room_type "Deluxe Room-12" :=
  room_type_normalization_lower_and_idempotent "Deluxe Room-12"

/-- Claim C4: phone normalization prepends "+62" exactly when the value is
present (truthy) and does not already start with "+"; "+"-prefixed, empty and
null values pass through unchanged; the transform is idempotent. -/
theorem phone_normalization_cases_and_idempotent (x : Option String) :
    (∀ s, x = some s → s ≠ "" → starts_with_plus s = false →
      transform_phone_value x = some ("+62" ++ s))
    ∧ (∀ s, x = some s → starts_with_plus s = true → transform_phone_value x = x)
    ∧ (x = none → transform_phone_value x = x)
    ∧ (x = some "" → transform_phone_value x = x)
    ∧ transform_phone_value (transform_phone_value x) = transform_phone_value x := by
  have hplus : ∀ s : String, starts_with_plus ("+62" ++ s) = true := by
    intro s
    simp [starts_with_plus, String.data_append]
  refine ⟨?_, ?_, ?_, ?_, ?_⟩
  · intro s hx hs hp
    subst hx
    simp [transform_phone_value, py_truthy, hs, hp]
  · intro s hx hp
    subst hx
    simp [transform_phone_value, hp]
  · intro hx; subst hx; rfl
  · intro hx; subst hx; simp [transform_phone_value, py_truthy]
  · match x with
    | none => rfl
    | some s =>
      by_cases hp : starts_with_plus s = true
      · simp [transform_phone_value, hp]
      · by_cases hs : s = ""
        · subst hs; simp [transform_phone_value, py_truthy]
        · simp [transform_phone_value, py_truthy, hs, hp, hplus]

/-- Witness for C4 at the concrete phone number "81234". -/
theorem phone_normalization_witness :
    transform_phone_value (some "81234") = some ("+62" ++ "81234") :=
  (phone_normalization_cases_and_idempotent (some "81234")).1 "81234" rfl
    (by decide) (by decide)

/-- Claim C3: after `astype(str)` coercion a reservation joins every campaign
whose coerced id equals its coerced voucher_code and the output row carries
the campaign's name and description (non-null); a reservation matching no
campaign still appears, with null campaign fields.  The string "5" and the
number 5 coerce to the same key. -/
theorem marketing_mart_join_and_left_preservation
    (reservations : List Reservation) (campaigns : List Campaign) :
    (∀ r ∈ reservations, ∀ c ∈ campaigns,
        c.id.astype_str = r.voucher_code.astype_str →
        marketing_row r (some c.name) (some c.description)
          ∈ create_marketing_mart reservations campaigns)
    ∧ (∀ r ∈ reservations,
        (∀ c ∈ campaigns, c.id.astype_str ≠ r.voucher_code.astype_str) →
        marketing_row r none none ∈ create_marketing_mart reservations campaigns)
    ∧ Value.astype_str (.str "5") = Value.astype_str (.int 5) := by
  refine ⟨?_, ?_, rfl⟩
  · intro r hr c hc heq
    unfold create_marketing_mart
    rw [List.mem_flatMap]
    refine ⟨r, hr, ?_⟩
    have hcf : c ∈ campaigns.filter
        (fun c => decide (c.id.astype_str = r.voucher_code.astype_str)) :=
      List.mem_filter.mpr ⟨hc, by simpa using heq⟩
    rcases hfil : campaigns.filter
        (fun c => decide (c.id.astype_str = r.voucher_code.astype_str)) with _ | ⟨c0, ms⟩
    · rw [hfil] at hcf; cases hcf
    · rw [hfil] at hcf
      rw [hfil]
      exact List.mem_map.mpr ⟨c, hcf, rfl⟩
  · intro r hr hnone
    unfold create_marketing_mart
    rw [List.mem_flatMap]
    refine ⟨r, hr, ?_⟩
    have hfil : campaigns.filter
        (fun c => decide (c.id.astype_str = r.voucher_code.astype_str)) = [] := by
      rw [List.filter_eq_nil_iff]
      intro c hc
      simpa using hnone c hc
    rw [hfil]
    exact List.mem_singleton.mpr rfl

/-- Concrete inputs for the C3 witness: a reservation with voucher_code "5", a
reservation with voucher_code "9", and one campaign with numeric id 5. -/
def mm_res_match : Reservation :=
  ⟨.int 1, .null, .null, .null, .null, .null, .null, .null, .str "5", .null⟩

def mm_res_nomatch : Reservation :=
  ⟨.int 2, .null, .null, .null, .null, .null, .null, .null, .str "9", .null⟩

def mm_campaign : Campaign := ⟨.int 5, "Promo", "Spring promo"⟩

/-- Witness for C3: the "5"/5 pair joins, the unmatched reservation keeps null
campaign fields. -/
theorem marketing_mart_witness :
    marketing_row mm_res_match (some "Promo") (some "Spring promo")
      ∈ create_marketing_mart [mm_res_match, mm_res_nomatch] [mm_campaign]
    ∧ marketing_row mm_res_nomatch none none
      ∈ create_marketing_mart [mm_res_match, mm_res_nomatch] [mm_campaign] :=
  ⟨(marketing_mart_join_and_left_preservation [mm_res_match, mm_res_nomatch]
      [mm_campaign]).1 mm_res_match (by decide) mm_campaign (by decide) (by decide),
   (marketing_mart_join_and_left_preservation [mm_res_match, mm_res_nomatch]
      [mm_campaign]).2.1 mm_res_nomatch (by decide) (by decide)⟩

/-- Claim C8: a failed extraction of any of the four source batches makes both
the fact job and the dimension job abort (return `none`) before any transform,
merge or load runs. -/
theorem extraction_failure_aborts (today : Value) (r s rm u : Option DF)
    (h : r = none ∨ s = none ∨ rm = none ∨ u = none) :
    run_fact_main r s rm u = none ∧ run_dims_main today r s rm u = none := by
  rcases r with _ | r <;> rcases s with _ | s <;> rcases rm with _ | rm <;>
    rcases u with _ | u <;> simp_all [run_fact_main, run_dims_main]

/-- Witness for C8: a failed Stays extraction aborts both jobs. -/
theorem extraction_failure_witness :
    ((some (DF.mk [] []) : Option DF) = none ∨ (none : Option DF) = none
      ∨ (some (DF.mk [] []) : Option DF) = none ∨ (some (DF.mk [] []) : Option DF) = none)
    ∧ run_fact_main (some (DF.mk [] [])) none (some (DF.mk [] [])) (some (DF.mk [] [])) = none
    ∧ run_dims_main .null (some (DF.mk [] [])) none (some (DF.mk [] [])) (some (DF.mk [] []))
        = none :=
  ⟨Or.inr (Or.inl rfl),
   extraction_failure_aborts .null (some (DF.mk [] [])) none (some (DF.mk [] []))
     (some (DF.mk [] [])) (Or.inr (Or.inl rfl))⟩

/-- A batch with neither a room_type nor a phone_number column. -/
def df_no_room_col : DF := ⟨["id"], [[("id", Value.int 1)]]⟩

/-- Counterexample to C5 as stated: the dimension-pipeline transform is not a
no-op on a batch missing the targeted column — it raises a KeyError
(src/etl_dims.py line 19 indexes `df['room_type']` unguarded). -/
theorem dims_transform_missing_column_raises :
    transform_dimension_data df_no_room_col "dim_rooms"
        = .error "KeyError: room_type"
    ∧ "room_type" ∉ df_no_room_col.cols
    ∧ transform_dimension_data df_no_room_col "dim_rooms" ≠ .ok df_no_room_col := by
  refine ⟨rfl, by decide, ?_⟩
  intro h
  rw [(rfl : transform_dimension_data df_no_room_col "dim_rooms"
    = .error "KeyError: room_type")] at h
  cases h

/-- Claim C5 (amended): on a batch missing the targeted column, the fact
pipeline's transforms are no-ops that raise no error, while the dimension
pipeline's transform raises a KeyError instead of skipping. -/
theorem missing_column_transform_behavior (df : DF) :
    ("room_type" ∉ df.cols → transform_room_type df = df)
    ∧ ("phone_number" ∉ df.cols → transform_phone_number df = df)
    ∧ ("room_type" ∉ df.cols →
        transform_dimension_data df "dim_rooms" = .error "KeyError: room_type")
    ∧ ("phone_number" ∉ df.cols →
        transform_dimension_data df "dim_guests" = .error "KeyError: phone_number") := by
  refine ⟨fun h => ?_, fun h => ?_, fun h => ?_, fun h => ?_⟩
  · unfold transform_room_type; rw [if_neg h]
  · unfold transform_phone_number; rw [if_neg h]
  · unfold transform_dimension_data; rw [if_pos rfl, if_neg h]
  · unfold transform_dimension_data
    rw [if_neg (by decide), if_pos rfl, if_neg h]

/-- Witness for the amended C5 on a concrete batch without the columns. -/
theorem missing_column_transform_witness :
    transform_room_type df_no_room_col = df_no_room_col
    ∧ transform_phone_number df_no_room_col = df_no_room_col
    ∧ transform_dimension_data df_no_room_col "dim_rooms"
        = .error "KeyError: room_type"
    ∧ transform_dimension_data df_no_room_col "dim_guests"
        = .error "KeyError: phone_number" :=
  ⟨(missing_column_transform_behavior df_no_room_col).1 (by decide),
   (missing_column_transform_behavior df_no_room_col).2.1 (by decide),
   (missing_column_transform_behavior df_no_room_col).2.2.1 (by decide),
   (missing_column_transform_behavior df_no_room_col).2.2.2 (by decide)⟩

theorem dedupBy_key_nodup (c : String) (rows : List Row) (seen : List Value) :
    ((dedupBy c rows seen).map (fun r => r.get c)).Nodup
    ∧ ∀ v ∈ (dedupBy c rows seen).map (fun r => r.get c), v ∉ seen := by
  induction rows generalizing seen with
  | nil => simp [dedupBy]
  | cons r rs ih =>
    by_cases h : r.get c ∈ seen
    · simpa only [dedupBy, if_pos h] using ih seen
    · simp only [dedupBy, if_neg h, List.map_cons, List.nodup_cons]
      obtain ⟨h1, h2⟩ := ih (r.get c :: seen)
      refine ⟨⟨fun hmem => absurd (List.mem_cons_self _ _) (h2 _ hmem), h1⟩, ?_⟩
      intro v hv
      rcases List.mem_cons.mp hv with rfl | hv'
      · exact h
      · exact fun hs => h2 v hv' (List.mem_cons_of_mem _ hs)

theorem dedupBy_subset (c : String) (rows : List Row) (seen : List Value) :
    ∀ r ∈ dedupBy c rows seen, r ∈ rows := by
  induction rows generalizing seen with
  | nil => simp [dedupBy]
  | cons r rs ih =>
    intro r' hr'
    by_cases h : r.get c ∈ seen
    · rw [dedupBy, if_pos h] at hr'
      exact List.mem_cons_of_mem _ (ih seen r' hr')
    · rw [dedupBy, if_neg h] at hr'
      rcases List.mem_cons.mp hr' with rfl | hr''
      · exact List.mem_cons_self _ _
      · exact List.mem_cons_of_mem _ (ih _ r' hr'')

theorem dedupBy_keeps_first (c : String) (rows : List Row) (seen : List Value) :
    ∀ r' ∈ dedupBy c rows seen,
      rows.find? (fun x => decide (x.get c = r'.get c)) = some r' := by
  induction rows generalizing seen with
  | nil => simp [dedupBy]
  | cons r rs ih =>
    intro r' hr'
    by_cases h : r.get c ∈ seen
    · rw [dedupBy, if_pos h] at hr'
      have hne : r.get c ≠ r'.get c := by
        intro he
        exact ((dedupBy_key_nodup c rs seen).2 (r'.get c)
          (List.mem_map_of_mem _ hr')) (he ▸ h)
      rw [List.find?_cons_of_neg _ (by simpa using hne)]
      exact ih seen r' hr'
    · rw [dedupBy, if_neg h] at hr'
      rcases List.mem_cons.mp hr' with rfl | hr''
      · exact List.find?_cons_of_pos _ (by simp)
      · have hne : r.get c ≠ r'.get c := by
          intro he
          exact ((dedupBy_key_nodup c rs (r.get c :: seen)).2 (r'.get c)
            (List.mem_map_of_mem _ hr'')) (he ▸ List.mem_cons_self _ _)
        rw [List.find?_cons_of_neg _ (by simpa using hne)]
        exact ih _ r' hr''

theorem get_renameKeys_project (columns : List String) (id_col new_id_col : String)
    (h1 : id_col ∈ columns) (h2 : new_id_col ∉ columns) (r : Row) :
    (Row.renameKeys [(id_col, new_id_col)] (Row.project columns r)).get new_id_col
      = (Row.project columns r).get id_col := by
  induction columns with
  | nil => cases h1
  | cons c cs ih =>
    have hcnew : c ≠ new_id_col := fun h => h2 (h ▸ List.mem_cons_self _ _)
    by_cases hc : c = id_col
    · subst hc
      simp [Row.project, Row.renameKeys, renameKey, Row.get]
    · have h1' : id_col ∈ cs := by
        rcases List.mem_cons.mp h1 with h | h
        · exact absurd h.symm hc
        · exact h
      have h2' : new_id_col ∉ cs := fun h => h2 (List.mem_cons_of_mem _ h)
      have key : renameKey [(id_col, new_id_col)] c = c := by
        simp [renameKey, Ne.symm hc]
      simp only [Row.project, List.map_cons, Row.renameKeys, key, Row.get,
        if_neg hcnew, if_neg hc]
      exact ih h1' h2'

/-- Claim C2: `prepare_fact_data` emits at most one row per natural-id value,
and the row kept for each id is the first-occurring one of the input batch
(pandas `drop_duplicates(keep='first')`); the id column is then renamed. -/
theorem fact_preparation_dedup_first_seen (df : DF) (columns : List String)
    (id_col new_id_col : String) (h1 : id_col ∈ columns) (h2 : new_id_col ∉ columns) :
    ((prepare_fact_data df columns id_col new_id_col).rows.map
        (fun r => r.get new_id_col)).Nodup
    ∧ ∀ r ∈ (prepare_fact_data df columns id_col new_id_col).rows, ∃ r0,
        (df.select columns).rows.find? (fun x => decide (x.get id_col = r0.get id_col))
          = some r0
        ∧ r = Row.renameKeys [(id_col, new_id_col)] r0
        ∧ r.get new_id_col = r0.get id_col := by
  constructor
  · have hmaps : (prepare_fact_data df columns id_col new_id_col).rows.map
        (fun r => r.get new_id_col)
        = (dedupBy id_col (df.select columns).rows []).map
            (fun r0 => r0.get id_col) := by
      show ((dedupBy id_col (df.select columns).rows []).map
        (Row.renameKeys [(id_col, new_id_col)])).map (fun r => r.get new_id_col) = _
      rw [List.map_map]
      apply List.map_congr_left
      intro r0 hr0
      have hr0s := dedupBy_subset _ _ _ r0 hr0
      obtain ⟨rbase, _, rfl⟩ := List.mem_map.mp hr0s
      exact get_renameKeys_project columns id_col new_id_col h1 h2 rbase
    rw [hmaps]
    exact (dedupBy_key_nodup id_col (df.select columns).rows []).1
  · intro r hr
    obtain ⟨r0, hr0, rfl⟩ := List.mem_map.mp hr
    refine ⟨r0, dedupBy_keeps_first id_col _ [] r0 hr0, rfl, ?_⟩
    have hr0s := dedupBy_subset _ _ _ r0 hr0
    obtain ⟨rbase, _, rfl⟩ := List.mem_map.mp hr0s
    exact get_renameKeys_project columns id_col new_id_col h1 h2 rbase

/-- Concrete duplicate-id batch for the C2 witness. -/
def dup_df : DF :=
  ⟨["id", "v"],
   [[("id", Value.int 1), ("v", Value.str "a")],
    [("id", Value.int 1), ("v", Value.str "b")],
    [("id", Value.int 2), ("v", Value.str "c")]]⟩

/-- Witness for C2 on a batch holding two rows with id 1. -/
theorem fact_preparation_dedup_witness :
    ("id" ∈ ["id", "v"] ∧ "rid" ∉ ["id", "v"])
    ∧ (((prepare_fact_data dup_df ["id", "v"] "id" "rid").rows.map
          (fun r => r.get "rid")).Nodup
      ∧ ∀ r ∈ (prepare_fact_data dup_df ["id", "v"] "id" "rid").rows, ∃ r0,
          (dup_df.select ["id", "v"]).rows.find?
              (fun x => decide (x.get "id" = r0.get "id")) = some r0
          ∧ r = Row.renameKeys [("id", "rid")] r0
          ∧ r.get "rid" = r0.get "id") :=
  ⟨⟨by decide, by decide⟩,
   fact_preparation_dedup_first_seen dup_df ["id", "v"] "id" "rid"
     (by decide) (by decide)⟩

theorem Row.keys_renameKeys (m : List (String × String)) (r : Row) :
    (Row.renameKeys m r).keys = r.keys.map (renameKey m) := by
  simp [Row.renameKeys, Row.keys, List.map_map]

theorem Row.keys_project (cs : List String) (r : Row) :
    (Row.project cs r).keys = cs := by
  unfold Row.project Row.keys
  rw [List.map_map]
  exact List.map_id cs

theorem keys_select (df : DF) (cs : List String) :
    ∀ r ∈ (df.select cs).rows, Row.keys r = cs := by
  intro r hr
  obtain ⟨r0, _, rfl⟩ := List.mem_map.mp hr
  exact Row.keys_project cs r0

theorem applySuffix_empty_suffix (ov : List String) (c : String) :
    applySuffix ov "" c = c := by
  unfold applySuffix
  split <;> simp

theorem applySuffix_cases (ov : List String) (suf c : String) :
    applySuffix ov suf c = c ++ suf ∨ applySuffix ov suf c = c := by
  unfold applySuffix
  split
  · exact Or.inl rfl
  · exact Or.inr rfl

theorem lrow_empty_suffix (ov : List String) (r : Row) :
    r.map (fun p => (applySuffix ov "" p.1, p.2)) = r := by
  simp [applySuffix_empty_suffix]

/-- With an empty left suffix a left merge keeps every left row verbatim and
extends it: its row list is a flat map sending each left row `l` to a nonempty
chunk of rows `l ++ rest`, where `rest` carries the (suffixed) right columns. -/
theorem leftMerge_rows_shape (ldf rdf : DF) (lOn rOn rsuf : String)
    (hkeys : ∀ r ∈ rdf.rows, Row.keys r = rdf.cols) :
    ∃ chunk : Row → List Row,
      (ldf.leftMerge rdf lOn rOn "" rsuf).rows = ldf.rows.flatMap chunk
      ∧ ∀ l, chunk l ≠ []
        ∧ ∀ t ∈ chunk l, ∃ rest, t = l ++ rest
            ∧ Row.keys rest = rdf.cols.map
                (applySuffix (ldf.cols.filter (fun x => decide (x ∈ rdf.cols))) rsuf) := by
  refine ⟨fun l =>
    match rdf.rows.filter (fun r => decide (r.get rOn = l.get lOn)) with
    | [] => [l ++ rdf.cols.map (fun d =>
        (applySuffix (ldf.cols.filter (fun x => decide (x ∈ rdf.cols))) rsuf d, Value.null))]
    | ms => ms.map (fun r => l ++ r.map (fun p =>
        (applySuffix (ldf.cols.filter (fun x => decide (x ∈ rdf.cols))) rsuf p.1, p.2))),
    ?_, ?_⟩
  · show (ldf.leftMerge rdf lOn rOn "" rsuf).rows = _
    unfold DF.leftMerge
    simp only [lrow_empty_suffix]
  · intro l
    constructor
    · rcases hms : rdf.rows.filter (fun r => decide (r.get rOn = l.get lOn)) with _ | ⟨m, ms⟩
      · simp [hms]
      · simp [hms]
    · intro t ht
      rcases hms : rdf.rows.filter (fun r => decide (r.get rOn = l.get lOn)) with _ | ⟨m, ms⟩
      · simp only [hms] at ht
        simp only [List.mem_singleton] at ht
        subst ht
        refine ⟨_, rfl, ?_⟩
        unfold Row.keys
        rw [List.map_map]
        rfl
      · simp only [hms] at ht
        obtain ⟨r, hrmem, rfl⟩ := List.mem_map.mp ht
        have hr : r ∈ rdf.rows := List.mem_of_mem_filter (by rw [hms]; exact hrmem)
        refine ⟨_, rfl, ?_⟩
        have hkr := hkeys r hr
        unfold Row.keys at hkr ⊢
        rw [List.map_map, ← hkr, List.map_map]
        rfl

/-- A column untouched by the suffixed right side reads the same on every
merged row as on the originating left row, so its value set is unchanged. -/
theorem leftMerge_colValues_mem (ldf rdf : DF) (lOn rOn rsuf c : String) (v : Value)
    (hkeys : ∀ r ∈ rdf.rows, Row.keys r = rdf.cols)
    (hc : ∀ d ∈ rdf.cols,
      applySuffix (ldf.cols.filter (fun x => decide (x ∈ rdf.cols))) rsuf d ≠ c) :
    v ∈ (ldf.leftMerge rdf lOn rOn "" rsuf).colValues c ↔ v ∈ ldf.colValues c := by
  obtain ⟨chunk, hrows, hchunk⟩ := leftMerge_rows_shape ldf rdf lOn rOn rsuf hkeys
  have hget : ∀ l, ∀ t ∈ chunk l, Row.get t c = Row.get l c := by
    intro l t ht
    obtain ⟨rest, rfl, hkr⟩ := (hchunk l).2 t ht
    apply Row.get_append_of_not_keys
    rw [hkr]
    intro hmem
    obtain ⟨d, hd, hde⟩ := List.mem_map.mp hmem
    exact hc d hd hde
  unfold DF.colValues
  rw [hrows]
  constructor
  · intro hv
    obtain ⟨t, htm, rfl⟩ := List.mem_map.mp hv
    obtain ⟨l, hl, htl⟩ := List.mem_flatMap.mp htm
    exact List.mem_map.mpr ⟨l, hl, (hget l t htl).symm⟩
  · intro hv
    obtain ⟨l, hl, rfl⟩ := List.mem_map.mp hv
    obtain ⟨t, htl⟩ := List.exists_mem_of_ne_nil _ ((hchunk l).1)
    exact List.mem_map.mpr ⟨t, List.mem_flatMap.mpr ⟨l, hl, htl⟩, hget l t htl⟩

theorem colValues_mapCol_ne (df : DF) (c c' : String) (f : Value → Value) (h : c ≠ c') :
    (df.mapCol c f).colValues c' = df.colValues c' := by
  unfold DF.mapCol DF.colValues
  rw [List.map_map]
  apply List.map_congr_left
  intro r _
  exact Row.get_set_ne r c c' _ h

/-- The numeric casts of `transform_reservation_data` leave the id series
untouched. -/
theorem colValues_id_transform_reservation (df : DF) :
    (transform_reservation_data df).colValues "id" = df.colValues "id" := by
  unfold transform_reservation_data
  dsimp only
  split_ifs
  · rw [colValues_mapCol_ne _ _ _ _ (by decide), colValues_mapCol_ne _ _ _ _ (by decide)]
  · rw [colValues_mapCol_ne _ _ _ _ (by decide)]
  · rw [colValues_mapCol_ne _ _ _ _ (by decide)]
  · rfl

/-- The reservation ids visible to the isin test of line 131 — taken from the
merged frame of line 128 — are exactly the extracted reservation ids. -/
theorem reservationsM_id_mem (reservations0 stays0 rooms0 users0 : DF) (v : Value) :
    v ∈ (pipeline_reservationsM reservations0 stays0 rooms0 users0).colValues "id"
      ↔ v ∈ reservations0.colValues "id" := by
  unfold pipeline_reservationsM reservations_merged
  rw [leftMerge_colValues_mem _ _ _ _ _ _ _ (keys_select _ _) ?hc]
  · rw [colValues_id_transform_reservation]
  case hc =>
    intro d hd
    have hd' : d = "reservation_id" := List.mem_singleton.mp hd
    subst hd'
    rcases applySuffix_cases
        ((transform_reservation_data reservations0).cols.filter
          (fun x => decide (x ∈ ((pipeline_staysM stays0 rooms0 users0).select
            ["reservation_id"]).cols))) "_stays" "reservation_id" with h | h <;>
      rw [h] <;> decide

/-- Claim C1: a (merged, renamed) stay row lands in `valid_stays` exactly when
its reservation_id occurs among the extracted reservation ids, in
`invalid_stays` exactly otherwise, and the two sets partition the stays
frame. -/
theorem stay_reconciliation_partition (reservations0 stays0 rooms0 users0 : DF) :
    (∀ r ∈ (pipeline_staysM stays0 rooms0 users0).rows,
      (r ∈ (valid_stays (pipeline_staysM stays0 rooms0 users0)
              (pipeline_reservationsM reservations0 stays0 rooms0 users0)).rows
        ↔ r.get "reservation_id" ∈ reservations0.colValues "id")
      ∧ (r ∈ (invalid_stays (pipeline_staysM stays0 rooms0 users0)
              (pipeline_reservationsM reservations0 stays0 rooms0 users0)).rows
        ↔ r.get "reservation_id" ∉ reservations0.colValues "id"))
    ∧ List.Perm
        ((valid_stays (pipeline_staysM stays0 rooms0 users0)
            (pipeline_reservationsM reservations0 stays0 rooms0 users0)).rows
          ++ (invalid_stays (pipeline_staysM stays0 rooms0 users0)
                (pipeline_reservationsM reservations0 stays0 rooms0 users0)).rows)
        (pipeline_staysM stays0 rooms0 users0).rows := by
  constructor
  · intro r hr
    have hmem := reservationsM_id_mem reservations0 stays0 rooms0 users0
      (r.get "reservation_id")
    constructor
    · simp only [valid_stays, DF.filterRows, List.mem_filter, decide_eq_true_eq]
      rw [hmem]
      exact and_iff_right hr
    · simp only [invalid_stays, DF.filterRows, List.mem_filter, Bool.not_eq_true',
        decide_eq_false_iff_not]
      rw [hmem]
      exact and_iff_right hr
  · exact List.filter_append_perm _ _

/-- Concrete inputs for the C1 witness: one stay (id 7) referencing
reservation 1, one extracted reservation (id 1), empty room/user tables. -/
def w_stays : DF :=
  ⟨["id", "reference_reservation_id"],
   [[("id", Value.int 7), ("reference_reservation_id", Value.int 1)]]⟩

def w_rooms : DF := ⟨["id", "room_type"], []⟩

def w_users : DF := ⟨["id", "phone_number"], []⟩

def w_res : DF := ⟨["id"], [[("id", Value.int 1)]]⟩

/-- The stay row of `w_stays` as it appears after the merges and the rename. -/
def w_stay_row : Row :=
  [("id", Value.int 7), ("reservation_id", Value.int 1), ("id_room", Value.null),
   ("room_type", Value.null), ("id_guest", Value.null), ("phone_number", Value.null)]

/-- Witness for C1 at the concrete run. -/
theorem stay_reconciliation_witness :
    w_stay_row ∈ (pipeline_staysM w_stays w_rooms w_users).rows
    ∧ (w_stay_row ∈ (valid_stays (pipeline_staysM w_stays w_rooms w_users)
          (pipeline_reservationsM w_res w_stays w_rooms w_users)).rows
        ↔ w_stay_row.get "reservation_id" ∈ w_res.colValues "id")
    ∧ List.Perm
        ((valid_stays (pipeline_staysM w_stays w_rooms w_users)
            (pipeline_reservationsM w_res w_stays w_rooms w_users)).rows
          ++ (invalid_stays (pipeline_staysM w_stays w_rooms w_users)
                (pipeline_reservationsM w_res w_stays w_rooms w_users)).rows)
        (pipeline_staysM w_stays w_rooms w_users).rows :=
  ⟨by decide,
   ((stay_reconciliation_partition w_res w_stays w_rooms w_users).1 w_stay_row
     (by decide)).1,
   (stay_reconciliation_partition w_res w_stays w_rooms w_users).2⟩

theorem keys_prepare_fact_data (df : DF) (cs : List String) (i n : String) :
    ∀ r ∈ (prepare_fact_data df cs i n).rows, Row.keys r = cs.map (renameKey [(i, n)]) := by
  intro r hr
  obtain ⟨base, hbase, rfl⟩ := List.mem_map.mp hr
  obtain ⟨x, _, rfl⟩ := List.mem_map.mp (dedupBy_subset _ _ _ base hbase)
  rw [Row.keys_renameKeys, Row.keys_project]

/-- Claim C10: the emitted fact_stays frame carries exactly the five projected
and renamed columns; the room_type and phone_number columns denormalized into
the stays frame never reach the output. -/
theorem fact_stays_exact_columns (reservations0 stays0 rooms0 users0 : DF) :
    (fact_pipeline reservations0 stays0 rooms0 users0).fact_stays.cols
        = ["stay_id", "date", "reservation_id", "room_id", "guest_id"]
    ∧ (∀ r ∈ (fact_pipeline reservations0 stays0 rooms0 users0).fact_stays.rows,
        Row.keys r = ["stay_id", "date", "reservation_id", "room_id", "guest_id"])
    ∧ "room_type" ∉ (fact_pipeline reservations0 stays0 rooms0 users0).fact_stays.cols
    ∧ "phone_number" ∉ (fact_pipeline reservations0 stays0 rooms0 users0).fact_stays.cols := by
  have hcols : (fact_pipeline reservations0 stays0 rooms0 users0).fact_stays.cols
      = ["stay_id", "date", "reservation_id", "room_id", "guest_id"] := rfl
  refine ⟨rfl, ?_, ?_, ?_⟩
  · intro r hr
    have hr' : r ∈ (prepare_fact_data
        (valid_stays (pipeline_staysM stays0 rooms0 users0)
          (pipeline_reservationsM reservations0 stays0 rooms0 users0))
        fact_stay_columns "id" "stay_id").rows := hr
    exact (keys_prepare_fact_data _ fact_stay_columns "id" "stay_id" r hr').trans (by decide)
  · rw [hcols]; decide
  · rw [hcols]; decide

/-- The fact_stays row produced from `w_stays`/`w_res` in the concrete run. -/
def w_fact_stay_row : Row :=
  [("stay_id", Value.int 7), ("date", Value.null), ("reservation_id", Value.int 1),
   ("room_id", Value.null), ("guest_id", Value.null)]

/-- Witness for C10 at the concrete run. -/
theorem fact_stays_exact_columns_witness :
    w_fact_stay_row ∈ (fact_pipeline w_res w_stays w_rooms w_users).fact_stays.rows
    ∧ Row.keys w_fact_stay_row = ["stay_id", "date", "reservation_id", "room_id", "guest_id"]
    ∧ (fact_pipeline w_res w_stays w_rooms w_users).fact_stays.cols
        = ["stay_id", "date", "reservation_id", "room_id", "guest_id"] :=
  ⟨by decide,
   (fact_stays_exact_columns w_res w_stays w_rooms w_users).2.1 w_fact_stay_row (by decide),
   (fact_stays_exact_columns w_res w_stays w_rooms w_users).1⟩

theorem Row.project_append_right (cs : List String) (l rest : Row)
    (h : ∀ c ∈ cs, c ∉ rest.keys) :
    Row.project cs (l ++ rest) = Row.project cs l := by
  unfold Row.project
  apply List.map_congr_left
  intro c hc
  rw [Row.get_append_of_not_keys _ _ _ (h c hc)]

theorem dedupBy_replicate_append_mem (c : String) (x : Row) (n : Nat) (rest : List Row)
    (seen : List Value) (h : x.get c ∈ seen) :
    dedupBy c (List.replicate n x ++ rest) seen = dedupBy c rest seen := by
  induction n with
  | zero => rfl
  | succ n ih =>
    rw [List.replicate_succ, List.cons_append, dedupBy, if_pos h]
    exact ih

theorem dedupBy_replicate_append_not_mem (c : String) (x : Row) (n : Nat) (rest : List Row)
    (seen : List Value) (h : x.get c ∉ seen) :
    dedupBy c (List.replicate (n + 1) x ++ rest) seen
      = x :: dedupBy c rest (x.get c :: seen) := by
  rw [List.replicate_succ, List.cons_append, dedupBy, if_neg h]
  congr 1
  exact dedupBy_replicate_append_mem c x n rest _ (List.mem_cons_self _ _)

/-- First-seen deduplication cannot see consecutive duplication: a flat map
that repeats each image at least once deduplicates exactly like the plain
map. -/
theorem dedupBy_flatMap_replicate (c : String) (xs : List Row) (g : Row → Row)
    (k : Row → Nat) (hk : ∀ a, 0 < k a) (seen : List Value) :
    dedupBy c (xs.flatMap (fun a => List.replicate (k a) (g a))) seen
      = dedupBy c (xs.map g) seen := by
  induction xs generalizing seen with
  | nil => rfl
  | cons a xs ih =>
    rw [List.flatMap_cons, List.map_cons]
    by_cases h : (g a).get c ∈ seen
    · rw [dedupBy_replicate_append_mem c (g a) (k a) _ seen h, dedupBy, if_pos h]
      exact ih seen
    · obtain ⟨n, hn⟩ : ∃ n, k a = n + 1 := ⟨k a - 1, by have := hk a; omega⟩
      rw [hn, dedupBy_replicate_append_not_mem c (g a) n _ seen h, dedupBy, if_neg h]
      congr 1
      exact ih _

/-- Projection to columns that avoid the dedup key commutes with first-seen
deduplication when it preserves that key. -/
theorem dedupBy_map_project (cs : List String) (c : String)
    (hc : ∀ r : Row, (Row.project cs r).get c = r.get c)
    (rows : List Row) (seen : List Value) :
    dedupBy c (rows.map (Row.project cs)) seen
      = (dedupBy c rows seen).map (Row.project cs) := by
  induction rows generalizing seen with
  | nil => rfl
  | cons r rs ih =>
    rw [List.map_cons, dedupBy, dedupBy, hc r]
    by_cases h : r.get c ∈ seen
    · rw [if_pos h, if_pos h]
      exact ih seen
    · rw [if_neg h, if_neg h, List.map_cons]
      congr 1
      exact ih _

/-- The claim's direct path, spelled in its order: numeric transform,
first-seen deduplication by id, column projection, id → reservation_id
rename, applied to the raw Reservation batch alone. -/
def fact_reservations_direct (reservations0 : DF) : DF :=
  (((transform_reservation_data reservations0).dropDuplicates "id").select
      fact_reservation_columns).rename [("id", "reservation_id")]

/-- Claim C9: the left-merge of line 128 has no effect on the emitted
fact_reservations rows or their order — the pipeline output equals the direct
path on the raw reservations. -/
theorem fact_reservations_merge_no_effect (reservations0 stays0 rooms0 users0 : DF) :
    (fact_pipeline reservations0 stays0 rooms0 users0).fact_reservations
      = fact_reservations_direct reservations0 := by
  obtain ⟨chunk, hrows, hchunk⟩ := leftMerge_rows_shape
    (transform_reservation_data reservations0)
    ((pipeline_staysM stays0 rooms0 users0).select ["reservation_id"])
    "id" "reservation_id" "_stays" (keys_select _ _)
  have hproj : ∀ l, ∀ t ∈ chunk l,
      Row.project fact_reservation_columns t = Row.project fact_reservation_columns l := by
    intro l t ht
    obtain ⟨rest, rfl, hkr⟩ := (hchunk l).2 t ht
    apply Row.project_append_right
    intro c hcmem
    rw [hkr]
    intro hck
    obtain ⟨d, hd, hde⟩ := List.mem_map.mp hck
    have hd' : d = "reservation_id" := List.mem_singleton.mp hd
    subst hd'
    rcases applySuffix_cases ((transform_reservation_data reservations0).cols.filter
        (fun x => decide (x ∈ ((pipeline_staysM stays0 rooms0 users0).select
          ["reservation_id"]).cols))) "_stays" "reservation_id" with h | h <;>
      rw [h] at hde <;> subst hde <;> exact absurd hcmem (by decide)
  have key : dedupBy "id"
      (((pipeline_reservationsM reservations0 stays0 rooms0 users0).select
        fact_reservation_columns).rows) []
      = dedupBy "id" (((transform_reservation_data reservations0).select
          fact_reservation_columns).rows) [] := by
    have hsel : ((pipeline_reservationsM reservations0 stays0 rooms0 users0).select
        fact_reservation_columns).rows
        = (transform_reservation_data reservations0).rows.flatMap
            (fun l => List.replicate ((chunk l).length)
              (Row.project fact_reservation_columns l)) := by
      show ((pipeline_reservationsM reservations0 stays0 rooms0 users0).rows.map
        (Row.project fact_reservation_columns)) = _
      rw [show (pipeline_reservationsM reservations0 stays0 rooms0 users0).rows
          = (transform_reservation_data reservations0).rows.flatMap chunk from hrows,
        List.map_flatMap]
      apply List.flatMap_congr
      intro l _
      rw [List.map_congr_left (hproj l), List.map_const']
    rw [hsel, dedupBy_flatMap_replicate _ _ _ _
      (fun l => List.length_pos.mpr (hchunk l).1)]
    rfl
  show prepare_fact_data (pipeline_reservationsM reservations0 stays0 rooms0 users0)
      fact_reservation_columns "id" "reservation_id" = _
  unfold prepare_fact_data fact_reservations_direct
  show DF.rename (DF.mk fact_reservation_columns _) _ = _
  rw [key]
  show DF.rename (DF.mk fact_reservation_columns
      (dedupBy "id" ((transform_reservation_data reservations0).rows.map
        (Row.project fact_reservation_columns)) [])) _ = _
  rw [dedupBy_map_project fact_reservation_columns "id" (fun r => rfl)]
  rfl

theorem renameKey_eq_iff (m : List (String × String)) (c : String)
    (h : ∀ p ∈ m, p.1 ≠ c ∧ p.2 ≠ c) (k : String) :
    renameKey m k = c ↔ k = c := by
  induction m with
  | nil => exact Iff.rfl
  | cons p m ih =>
    have hp := h p (List.mem_cons_self _ _)
    have hrest : ∀ q ∈ m, q.1 ≠ c ∧ q.2 ≠ c := fun q hq => h q (List.mem_cons_of_mem _ hq)
    unfold renameKey
    by_cases hk : p.1 = k
    · rw [if_pos hk]
      constructor
      · intro h2; exact absurd h2 hp.2
      · intro h2; subst h2; exact absurd hk hp.1
    · rw [if_neg hk]
      exact ih hrest

/-- None of the `columns_map` dictionaries mentions an SCD bookkeeping column,
on either side of a rename. -/
theorem columns_map_cases (t : String) :
    columns_map t = [("id", "reservation_id")]
    ∨ columns_map t = [("id", "stay_id"), ("reference_reservation_id", "reservation_id")]
    ∨ columns_map t = [("id", "room_id")]
    ∨ columns_map t = [("id", "guest_id")]
    ∨ columns_map t = [] := by
  unfold columns_map
  split_ifs <;> simp

theorem columns_map_avoids_scd (t c : String)
    (hc : c = "effective_date" ∨ c = "end_date" ∨ c = "current_flag") :
    ∀ p ∈ columns_map t, p.1 ≠ c ∧ p.2 ≠ c := by
  rcases columns_map_cases t with h | h | h | h | h <;>
    rcases hc with rfl | rfl | rfl <;> rw [h] <;> decide

theorem Row.get_renameKeys_avoid (m : List (String × String)) (c : String)
    (h : ∀ p ∈ m, p.1 ≠ c ∧ p.2 ≠ c) (r : Row) :
    (Row.renameKeys m r).get c = r.get c := by
  induction r with
  | nil => rfl
  | cons q r ih =>
    show Row.get ((renameKey m q.1, q.2) :: Row.renameKeys m r) c = _
    by_cases hq : q.1 = c
    · rw [Row.get, if_pos ((renameKey_eq_iff m c h q.1).mpr hq), Row.get, if_pos hq]
    · rw [Row.get, if_neg (fun he => hq ((renameKey_eq_iff m c h q.1).mp he)),
        Row.get, if_neg hq]
      exact ih

theorem mem_cols_rename_avoid (df : DF) (m : List (String × String)) (c : String)
    (h : ∀ p ∈ m, p.1 ≠ c ∧ p.2 ≠ c) :
    c ∈ (df.rename m).cols ↔ c ∈ df.cols := by
  show c ∈ df.cols.map (renameKey m) ↔ _
  rw [List.mem_map]
  constructor
  · rintro ⟨k, hk, he⟩
    rwa [(renameKey_eq_iff m c h k).mp he] at hk
  · intro hc
    exact ⟨c, hc, (renameKey_eq_iff m c h c).mpr rfl⟩

theorem cols_addColIfAbsent (df : DF) (c : String) (v : Value) :
    (df.addColIfAbsent c v).cols = if c ∈ df.cols then df.cols else df.cols ++ [c] := by
  unfold DF.addColIfAbsent
  split_ifs <;> rfl

theorem mem_cols_addColIfAbsent (df : DF) (c c' : String) (v : Value) :
    c' ∈ (df.addColIfAbsent c v).cols ↔ c' ∈ df.cols ∨ c' = c := by
  rw [cols_addColIfAbsent]
  split_ifs with h
  · constructor
    · exact Or.inl
    · rintro (h' | rfl)
      · exact h'
      · exact h
  · simp [List.mem_append]

theorem length_rows_addColIfAbsent (df : DF) (c : String) (v : Value) :
    (df.addColIfAbsent c v).rows.length = df.rows.length := by
  unfold DF.addColIfAbsent
  split_ifs <;> simp

theorem wf_rename (df : DF) (m : List (String × String))
    (hwf : ∀ r ∈ df.rows, Row.keys r = df.cols) :
    ∀ r ∈ (df.rename m).rows, Row.keys r = (df.rename m).cols := by
  intro r hr
  obtain ⟨r0, hr0, rfl⟩ := List.mem_map.mp hr
  rw [Row.keys_renameKeys, hwf r0 hr0]
  rfl

theorem wf_addColIfAbsent (df : DF) (c : String) (v : Value)
    (hwf : ∀ r ∈ df.rows, Row.keys r = df.cols) :
    ∀ r ∈ (df.addColIfAbsent c v).rows, Row.keys r = (df.addColIfAbsent c v).cols := by
  unfold DF.addColIfAbsent
  split_ifs with h
  · exact hwf
  · intro r hr
    obtain ⟨r0, hr0, rfl⟩ := List.mem_map.mp hr
    show Row.keys (r0 ++ [(c, v)]) = df.cols ++ [c]
    unfold Row.keys at hwf ⊢
    rw [List.map_append, hwf r0 hr0]
    rfl

theorem Row.get_append_single (r : Row) (c : String) (v : Value) (h : c ∉ r.keys) :
    (r ++ [(c, v)]).get c = v := by
  induction r with
  | nil => simp [Row.get]
  | cons q r ih =>
    simp only [Row.keys, List.map_cons, List.mem_cons, not_or] at h
    rw [List.cons_append, Row.get, if_neg (fun hq => h.1 hq.symm)]
    exact ih (by simpa [Row.keys] using h.2)

theorem get_addColIfAbsent_absent (df : DF) (c : String) (v : Value)
    (hwf : ∀ r ∈ df.rows, Row.keys r = df.cols) (h : c ∉ df.cols) :
    ∀ r ∈ (df.addColIfAbsent c v).rows, r.get c = v := by
  unfold DF.addColIfAbsent
  rw [if_neg h]
  intro r hr
  obtain ⟨r0, hr0, rfl⟩ := List.mem_map.mp hr
  exact Row.get_append_single r0 c v (by rw [hwf r0 hr0]; exact h)

/-- A constant settled on every row survives a further guarded append of a
different column. -/
theorem get_addColIfAbsent_all (df : DF) (c c' : String) (v w : Value) (hne : c' ≠ c)
    (h : ∀ r ∈ df.rows, r.get c' = w) :
    ∀ r ∈ (df.addColIfAbsent c v).rows, r.get c' = w := by
  unfold DF.addColIfAbsent
  split_ifs with hc
  · exact h
  · intro r hr
    obtain ⟨r0, hr0, rfl⟩ := List.mem_map.mp hr
    rw [Row.get_append_of_not_keys _ _ _ (by simp [Row.keys, hne])]
    exact h r0 hr0

theorem get_rows_addColIfAbsent_ne (df : DF) (c c' : String) (v : Value)
    (hne : c' ≠ c) (i : Nat) :
    (df.addColIfAbsent c v).rows[i]?.map (fun r => r.get c')
      = df.rows[i]?.map (fun r => r.get c') := by
  unfold DF.addColIfAbsent
  split_ifs with hc
  · rfl
  · show (df.rows.map (fun r => r ++ [(c, v)]))[i]?.map (fun r => Row.get r c') = _
    rw [List.getElem?_map]
    cases h : df.rows[i]? with
    | none => simp
    | some r =>
      simp only [Option.map_some']
      rw [Row.get_append_of_not_keys _ _ _ (by simp [Row.keys, hne])]

theorem get_rows_rename_avoid (df : DF) (m : List (String × String)) (c : String)
    (h : ∀ p ∈ m, p.1 ≠ c ∧ p.2 ≠ c) (i : Nat) :
    (df.rename m).rows[i]?.map (fun r => r.get c)
      = df.rows[i]?.map (fun r => r.get c) := by
  show (df.rows.map (Row.renameKeys m))[i]?.map (fun r => r.get c) = _
  rw [List.getElem?_map]
  cases hr : df.rows[i]? with
  | none => simp
  | some r =>
    simp only [Option.map_some']
    rw [Row.get_renameKeys_avoid m c h r]

theorem cols_addColIfAbsent_exists (df : DF) (c : String) (v : Value)
    (base extra : List String) (h : df.cols = base ++ extra) :
    ∃ extra2, (df.addColIfAbsent c v).cols = base ++ extra2
      ∧ ∀ x ∈ extra2, x ∈ extra ++ [c] := by
  rw [cols_addColIfAbsent]
  split_ifs with hc
  · exact ⟨extra, h, fun x hx => List.mem_append_left _ hx⟩
  · refine ⟨extra ++ [c], ?_, fun x hx => hx⟩
    rw [h, List.append_assoc]

theorem addColIfAbsent_noop (df : DF) (c : String) (v : Value) (h : c ∈ df.cols) :
    df.addColIfAbsent c v = df := by
  unfold DF.addColIfAbsent
  rw [if_pos h]

/-- Claim C7: every batch emitted by `prepare_data` carries the three SCD
bookkeeping columns — appended with the load-time date / null / true defaults
exactly when the column was absent from the input, existing columns being
preserved untouched — and the natural id columns are renamed per the stated
`columns_map` (dictionary equalities restated below). -/
theorem dimension_preparation_scd (df : DF) (t : String) (today : Value)
    (hwf : ∀ r ∈ df.rows, Row.keys r = df.cols) :
    (∀ p ∈ [("effective_date", today), ("end_date", Value.null),
        ("current_flag", Value.bool true)],
      p.1 ∈ (prepare_data df t today).cols
      ∧ (p.1 ∉ df.cols → ∀ r ∈ (prepare_data df t today).rows, r.get p.1 = p.2)
      ∧ (p.1 ∈ df.cols → ∀ i : Nat,
          (prepare_data df t today).rows[i]?.map (fun r => r.get p.1)
            = df.rows[i]?.map (fun r => r.get p.1)))
    ∧ (prepare_data df t today).rows.length = df.rows.length
    ∧ (∃ extra, (prepare_data df t today).cols
        = df.cols.map (renameKey (columns_map t)) ++ extra
        ∧ ∀ c ∈ extra, c ∈ ["effective_date", "end_date", "current_flag"])
    ∧ columns_map "dim_reservations" = [("id", "reservation_id")]
    ∧ columns_map "dim_stays"
        = [("id", "stay_id"), ("reference_reservation_id", "reservation_id")]
    ∧ columns_map "dim_rooms" = [("id", "room_id")]
    ∧ columns_map "dim_guests" = [("id", "guest_id")] := by
  have hchain : prepare_data df t today
      = (((df.rename (columns_map t)).addColIfAbsent "effective_date" today).addColIfAbsent
          "end_date" Value.null).addColIfAbsent "current_flag" (Value.bool true) := rfl
  have wf0 := wf_rename df (columns_map t) hwf
  have wf1 := wf_addColIfAbsent (df.rename (columns_map t)) "effective_date" today wf0
  have wf2 := wf_addColIfAbsent _ "end_date" Value.null wf1
  have hmem0 : ∀ c, (c = "effective_date" ∨ c = "end_date" ∨ c = "current_flag") →
      (c ∈ (df.rename (columns_map t)).cols ↔ c ∈ df.cols) :=
    fun c hc => mem_cols_rename_avoid df _ c (columns_map_avoids_scd t c hc)
  refine ⟨?_, ?_, ?_, rfl, rfl, rfl, rfl⟩
  · intro p hp
    simp only [List.mem_cons, List.not_mem_nil, or_false] at hp
    rcases hp with rfl | rfl | rfl
    · refine ⟨?_, ?_, ?_⟩
      · show "effective_date" ∈ (prepare_data df t today).cols
        rw [hchain, mem_cols_addColIfAbsent, mem_cols_addColIfAbsent,
          mem_cols_addColIfAbsent]
        simp
      · intro habs r hr
        have habs0 : "effective_date" ∉ (df.rename (columns_map t)).cols :=
          fun h => habs ((hmem0 _ (Or.inl rfl)).mp h)
        show r.get "effective_date" = today
        rw [hchain] at hr
        exact get_addColIfAbsent_all _ "current_flag" _ _ _ (by decide)
          (get_addColIfAbsent_all _ "end_date" _ _ _ (by decide)
            (get_addColIfAbsent_absent _ "effective_date" today wf0 habs0)) r hr
      · intro hin i
        have h0 : "effective_date" ∈ (df.rename (columns_map t)).cols :=
          (hmem0 _ (Or.inl rfl)).mpr hin
        have hnoop := addColIfAbsent_noop (df.rename (columns_map t))
          "effective_date" today h0
        show (prepare_data df t today).rows[i]?.map (fun r => r.get "effective_date")
            = df.rows[i]?.map (fun r => r.get "effective_date")
        rw [hchain]
        rw [get_rows_addColIfAbsent_ne _ "current_flag" "effective_date" _ (by decide) i,
          get_rows_addColIfAbsent_ne _ "end_date" "effective_date" _ (by decide) i,
          hnoop]
        exact get_rows_rename_avoid df _ _ (columns_map_avoids_scd t _ (Or.inl rfl)) i
    · refine ⟨?_, ?_, ?_⟩
      · show "end_date" ∈ (prepare_data df t today).cols
        rw [hchain, mem_cols_addColIfAbsent, mem_cols_addColIfAbsent,
          mem_cols_addColIfAbsent]
        simp
      · intro habs r hr
        have habs0 : "end_date" ∉ (df.rename (columns_map t)).cols :=
          fun h => habs ((hmem0 _ (Or.inr (Or.inl rfl))).mp h)
        have habs1 : "end_date"
            ∉ ((df.rename (columns_map t)).addColIfAbsent "effective_date" today).cols := by
          rw [mem_cols_addColIfAbsent]
          rintro (h | h)
          · exact habs0 h
          · exact absurd h (by decide)
        show r.get "end_date" = Value.null
        rw [hchain] at hr
        exact get_addColIfAbsent_all _ "current_flag" _ _ _ (by decide)
          (get_addColIfAbsent_absent _ "end_date" Value.null wf1 habs1) r hr
      · intro hin i
        have h0 : "end_date" ∈ (df.rename (columns_map t)).cols :=
          (hmem0 _ (Or.inr (Or.inl rfl))).mpr hin
        have h1 : "end_date"
            ∈ ((df.rename (columns_map t)).addColIfAbsent "effective_date" today).cols :=
          (mem_cols_addColIfAbsent _ _ _ _).mpr (Or.inl h0)
        have hnoop := addColIfAbsent_noop
          ((df.rename (columns_map t)).addColIfAbsent "effective_date" today)
          "end_date" Value.null h1
        show (prepare_data df t today).rows[i]?.map (fun r => r.get "end_date")
            = df.rows[i]?.map (fun r => r.get "end_date")
        rw [hchain]
        rw [get_rows_addColIfAbsent_ne _ "current_flag" "end_date" _ (by decide) i,
          hnoop,
          get_rows_addColIfAbsent_ne _ "effective_date" "end_date" _ (by decide) i]
        exact get_rows_rename_avoid df _ _
          (columns_map_avoids_scd t _ (Or.inr (Or.inl rfl))) i
    · refine ⟨?_, ?_, ?_⟩
      · show "current_flag" ∈ (prepare_data df t today).cols
        rw [hchain, mem_cols_addColIfAbsent]
        simp
      · intro habs r hr
        have habs0 : "current_flag" ∉ (df.rename (columns_map t)).cols :=
          fun h => habs ((hmem0 _ (Or.inr (Or.inr rfl))).mp h)
        have habs2 : "current_flag"
            ∉ (((df.rename (columns_map t)).addColIfAbsent "effective_date"
                today).addColIfAbsent "end_date" Value.null).cols := by
          rw [mem_cols_addColIfAbsent, mem_cols_addColIfAbsent]
          rintro ((h | h) | h)
          · exact habs0 h
          · exact absurd h (by decide)
          · exact absurd h (by decide)
        show r.get "current_flag" = Value.bool true
        rw [hchain] at hr
        exact get_addColIfAbsent_absent _ "current_flag" (Value.bool true) wf2 habs2 r hr
      · intro hin i
        have h0 : "current_flag" ∈ (df.rename (columns_map t)).cols :=
          (hmem0 _ (Or.inr (Or.inr rfl))).mpr hin
        have h2 : "current_flag"
            ∈ (((df.rename (columns_map t)).addColIfAbsent "effective_date"
                today).addColIfAbsent "end_date" Value.null).cols :=
          (mem_cols_addColIfAbsent _ _ _ _).mpr
            (Or.inl ((mem_cols_addColIfAbsent _ _ _ _).mpr (Or.inl h0)))
        have hnoop := addColIfAbsent_noop
          (((df.rename (columns_map t)).addColIfAbsent "effective_date"
            today).addColIfAbsent "end_date" Value.null)
          "current_flag" (Value.bool true) h2
        show (prepare_data df t today).rows[i]?.map (fun r => r.get "current_flag")
            = df.rows[i]?.map (fun r => r.get "current_flag")
        rw [hchain]
        rw [hnoop,
          get_rows_addColIfAbsent_ne _ "end_date" "current_flag" _ (by decide) i,
          get_rows_addColIfAbsent_ne _ "effective_date" "current_flag" _ (by decide) i]
        exact get_rows_rename_avoid df _ _
          (columns_map_avoids_scd t _ (Or.inr (Or.inr rfl))) i
  · show (prepare_data df t today).rows.length = df.rows.length
    rw [hchain, length_rows_addColIfAbsent, length_rows_addColIfAbsent,
      length_rows_addColIfAbsent]
    exact List.length_map _ _
  · obtain ⟨e1, he1, hs1⟩ := cols_addColIfAbsent_exists (df.rename (columns_map t))
      "effective_date" today (df.cols.map (renameKey (columns_map t))) []
      (by rw [List.append_nil]; rfl)
    obtain ⟨e2, he2, hs2⟩ := cols_addColIfAbsent_exists _ "end_date" Value.null _ e1 he1
    obtain ⟨e3, he3, hs3⟩ := cols_addColIfAbsent_exists _ "current_flag"
      (Value.bool true) _ e2 he2
    refine ⟨e3, ?_, ?_⟩
    · rw [hchain]
      exact he3
    · intro c hc
      rcases List.mem_append.mp (hs3 c hc) with t2 | tcf
      · rcases List.mem_append.mp (hs2 c t2) with t1 | ten
        · rcases List.mem_append.mp (hs1 c t1) with t0 | tef
          · cases t0
          · simp only [List.mem_singleton] at tef
            subst tef
            decide
        · simp only [List.mem_singleton] at ten
          subst ten
          decide
      · simp only [List.mem_singleton] at tcf
        subst tcf
        decide

/-- Concrete batch for the C7 witness: the input already carries
effective_date, so only end_date and current_flag are appended. -/
def c7_df : DF :=
  ⟨["id", "effective_date"],
   [[("id", Value.int 3), ("effective_date", Value.str "2020-01-01")]]⟩

def c7_today : Value := Value.str "2026-10-12"

/-- Witness for C7 on a concrete batch under the dim_stays mapping. -/
theorem dimension_preparation_witness :
    (∀ r ∈ c7_df.rows, Row.keys r = c7_df.cols)
    ∧ ((∀ p ∈ [("effective_date", c7_today), ("end_date", Value.null),
          ("current_flag", Value.bool true)],
        p.1 ∈ (prepare_data c7_df "dim_stays" c7_today).cols
        ∧ (p.1 ∉ c7_df.cols → ∀ r ∈ (prepare_data c7_df "dim_stays" c7_today).rows,
            r.get p.1 = p.2)
        ∧ (p.1 ∈ c7_df.cols → ∀ i : Nat,
            (prepare_data c7_df "dim_stays" c7_today).rows[i]?.map (fun r => r.get p.1)
              = c7_df.rows[i]?.map (fun r => r.get p.1)))
      ∧ (prepare_data c7_df "dim_stays" c7_today).rows.length = c7_df.rows.length
      ∧ (∃ extra, (prepare_data c7_df "dim_stays" c7_today).cols
          = c7_df.cols.map (renameKey (columns_map "dim_stays")) ++ extra
          ∧ ∀ c ∈ extra, c ∈ ["effective_date", "end_date", "current_flag"])
      ∧ columns_map "dim_reservations" = [("id", "reservation_id")]
      ∧ columns_map "dim_stays"
          = [("id", "stay_id"), ("reference_reservation_id", "reservation_id")]
      ∧ columns_map "dim_rooms" = [("id", "room_id")]
      ∧ columns_map "dim_guests" = [("id", "guest_id")]) :=
  ⟨by decide, dimension_preparation_scd c7_df "dim_stays" c7_today (by decide)⟩

end Bo2box
